import Mathlib

/-!
Verification of `ocpp/routing.py`: declarative handler registration
(`on`, `on_typed`, `after` decorators) and the per-instance dispatch-table
builder `create_route_map`.

The embedding is shallow:

* the process-wide `routables : list[str]` registry is threaded explicitly
  as a `List String` argument; each decorator application performs the
  source's conditional append (`registerRoutable`);
* the call behaviour of the wrappers produced by `on` and `on_typed` is
  embedded parametrically (`on_decorator`, `on_typed_decorator`): Python
  positional/keyword argument tuples and return values are opaque type
  parameters;
* the metadata the decorators attach to the wrapped function objects
  (`_on_action`, `_after_action`, `_skip_schema_validation`) is embedded as
  an `Attr` record with `Option` fields, `none` meaning the Python attribute
  is absent; an endpoint instance is a finite name-to-attribute table;
* `create_route_map` is translated line by line: a Python `dict` keyed by
  action is an insertion-ordered association list (`Routes`) with
  first-occurrence lookup and in-place update, exactly dict semantics given
  that `setEntry` replaces the first matching key.
-/

namespace OcppRouting

/-- Action identifiers as carried at runtime: the values of the protocol's
action enumeration members (e.g. "Heartbeat").  The routing core only
compares them for equality (dict keys), so strings suffice. -/
abbrev ActionId := String

/-- Modelled from the spec: the member names of the external protocol action
enumeration `enums.Action` (defined in the repository outside this core's
source file).  The spec names "BootNotification", "Heartbeat" and "Reset" as
actions; the exact member set is irrelevant, only that it is fixed and
finite. -/
def actionMemberNames : List String :=
  ["BootNotification", "Heartbeat", "Reset"]

/-- Modelled from the spec: `enums.Action(name)`, the enum lookup performed
at `routing.py:39`.  A Python `Enum` call returns the member whose value is
`name` and raises `ValueError` when no member matches; `none` models the
raise. -/
def actionOfName (name : String) : Option ActionId :=
  if name ∈ actionMemberNames then some name else none

/-- `routing.py:98-99` / `125-126` / `41-42`: append `func.__name__` to the
process-wide `routables` list unless it is already present. -/
def registerRoutable (routables : List String) (name : String) : List String :=
  if name ∈ routables then routables else routables ++ [name]

/-! ### Call behaviour of the wrappers (parametric embedding) -/

/-- A wrapped handler as produced by the `on` decorator: the `inner`
closure plus the attributes set on it (`routing.py:92-100`). -/
structure OnWrapped (Args Kwargs Ret : Type) where
  call : Args → Kwargs → Ret
  on_action : ActionId
  skip_schema_validation : Bool

/-- `routing.py:89-100`, call behaviour: `decorator(func)` builds
`inner(*args, **kwargs): return func(*args, **kwargs)` and tags it with
`_on_action = action` and `_skip_schema_validation = skip`. -/
def on_decorator {Args Kwargs Ret : Type} (action : ActionId) (skip : Bool)
    (func : Args → Kwargs → Ret) : OnWrapped Args Kwargs Ret :=
  { call := fun args kwargs => func args kwargs
    on_action := action
    skip_schema_validation := skip }

/-- `routing.py:31-37`, call behaviour of the typed wrapper:
`inner(self, **kwargs)` constructs `request = call_type(**kwargs)` and
returns `func(self, request)`.  `call_type` is the request-object
constructor, opaque to this core. -/
def on_typed_decorator {Self Fields Req Ret : Type} (call_type : Fields → Req)
    (func : Self → Req → Ret) : Self → Fields → Ret :=
  fun self kwargs => func self (call_type kwargs)

/-! ### Metadata-level embedding: decorated attributes and the registry -/

/-- A raw handler function as seen by a decorator: its `__name__` and an
opaque identity token standing for its call behaviour. -/
structure RawFunc where
  name : String
  callId : Nat
deriving DecidableEq, Repr

/-- A Python attribute value as inspected by `create_route_map`: the three
optional attributes read via `getattr`, plus the identity token of the
underlying callable.  `none` models an absent Python attribute
(`AttributeError` on `getattr`). -/
structure Attr where
  onAction : Option ActionId
  afterAction : Option ActionId
  skipSchemaValidation : Option Bool
  callId : Nat
deriving DecidableEq, Repr

/-- `routing.py:89-100`, metadata and registry effect of `@on(action)`:
returns the wrapped attribute and the updated registry. -/
def on_decorate (action : ActionId) (skip : Bool) (func : RawFunc)
    (routables : List String) : Attr × List String :=
  (⟨some action, none, some skip, func.callId⟩,
   registerRoutable routables func.name)

/-- `routing.py:105-129`, metadata and registry effect of `@after(action)`:
only `_after_action` is attached; no `_skip_schema_validation`. -/
def after_decorate (action : ActionId) (func : RawFunc)
    (routables : List String) : Attr × List String :=
  (⟨none, some action, none, func.callId⟩,
   registerRoutable routables func.name)

/-- The request type argument of `on_typed`: all the decorator reads from it
is its `__name__` (`routing.py:39`). -/
structure CallType where
  typeName : String
deriving DecidableEq, Repr

/-- `routing.py:27-45`, metadata and registry effect of
`@on_typed(call_type)`.  Line 39 evaluates `enums.Action(call_type.__name__)`
eagerly, before the registry append on lines 41-42; a failed enum lookup
raises `ValueError` out of the decorator (modelled as `none`), leaving the
registry untouched. -/
def on_typed_decorate (call_type : CallType) (skip : Bool) (func : RawFunc)
    (routables : List String) : Option (Attr × List String) :=
  match actionOfName call_type.typeName with
  | none => none
  | some action =>
      some (⟨some action, none, some skip, func.callId⟩,
            registerRoutable routables func.name)

/-! ### The endpoint instance and the route map -/

/-- An endpoint instance: a finite table from attribute names to attribute
values.  `getattrOf` is Python's `getattr(obj, name)`, with `none` for
`AttributeError`. -/
abbrev Endpoint := List (String × Attr)

def getattrOf (obj : Endpoint) (name : String) : Option Attr :=
  (obj.find? (fun p => p.1 == name)).map (·.2)

/-- One route entry: the Python dict built per action by `create_route_map`,
holding the values of keys `"_on_action"`, `"_after_action"` and
`"_skip_schema_validation"`; `none` means the key is absent from the dict. -/
structure RouteEntry where
  onHandler : Option Attr
  afterHandler : Option Attr
  skipSchemaValidation : Option Bool
deriving DecidableEq, Repr

/-- The empty dict `{}` created by `routes[action] = {}` (`routing.py:170`). -/
def RouteEntry.empty : RouteEntry := ⟨none, none, none⟩

/-- The `routes` dict: insertion-ordered association list keyed by action. -/
abbrev Routes := List (ActionId × RouteEntry)

/-- Dict lookup `routes[action]` (first occurrence). -/
def findEntry? (routes : Routes) (action : ActionId) : Option RouteEntry :=
  (routes.find? (fun p => p.1 == action)).map (·.2)

/-- Dict update `routes[action] = entry`: replaces the first binding of
`action` in place, or appends a new binding. -/
def setEntry (routes : Routes) (action : ActionId) (entry : RouteEntry) :
    Routes :=
  match routes with
  | [] => [(action, entry)]
  | (b, e0) :: rest =>
      if b = action then (action, entry) :: rest
      else (b, e0) :: setEntry rest action entry

/-- The two metadata attribute names iterated at `routing.py:164`. -/
inductive RouteOpt where
  | onAction
  | afterAction
deriving DecidableEq, Repr

/-- `getattr(attr, option)` at `routing.py:167`: the metadata attribute the
loop reads for each option. -/
def optAction (opt : RouteOpt) (attr : Attr) : Option ActionId :=
  match opt with
  | .onAction => attr.onAction
  | .afterAction => attr.afterAction

/-- `routing.py:175-180`: the update applied to the route entry for one
option.  For `"_on_action"` the skip flag is stored first (defaulting to
`False` when the attribute is absent), then the handler itself; for
`"_after_action"` only the handler. -/
def updEntry (opt : RouteOpt) (attr : Attr) (entry : RouteEntry) :
    RouteEntry :=
  match opt with
  | .onAction =>
      { entry with
        onHandler := some attr
        skipSchemaValidation := some (attr.skipSchemaValidation.getD false) }
  | .afterAction => { entry with afterHandler := some attr }

/-- `routing.py:165-183`, the body of the inner `for option in ...` loop for
one registry name and one option: read the attribute (skip the name on
`AttributeError`), read the option's action tag (skip on `AttributeError`),
create the entry if absent (an empty dict), and update it. -/
def processOption (obj : Endpoint) (routes : Routes) (attrName : String)
    (opt : RouteOpt) : Routes :=
  match getattrOf obj attrName with
  | none => routes
  | some attr =>
      match optAction opt attr with
      | none => routes
      | some action =>
          setEntry routes action
            (updEntry opt attr ((findEntry? routes action).getD RouteEntry.empty))

/-- One iteration of the outer loop at `routing.py:163`: both options, in
source order. -/
def processName (obj : Endpoint) (routes : Routes) (attrName : String) :
    Routes :=
  processOption obj (processOption obj routes attrName .onAction)
    attrName .afterAction

/-- `routing.py:132-185`: walk the registry in order, building the route
dict. -/
def create_route_map (routables : List String) (obj : Endpoint) : Routes :=
  routables.foldl (processName obj) []

/-! ### Specification-side closed forms -/

/-- The attributes the registry resolves on the instance, in registry
order. -/
def resolvedAttrs (obj : Endpoint) (routables : List String) : List Attr :=
  routables.filterMap (getattrOf obj)

/-- The resolved attributes claiming action `a` as their primary action, in
registry order. -/
def primaryClaimers (obj : Endpoint) (routables : List String)
    (a : ActionId) : List Attr :=
  (resolvedAttrs obj routables).filter (fun x => decide (x.onAction = some a))

/-- The resolved attributes claiming action `a` as their post action, in
registry order. -/
def postClaimers (obj : Endpoint) (routables : List String)
    (a : ActionId) : List Attr :=
  (resolvedAttrs obj routables).filter
    (fun x => decide (x.afterAction = some a))

/-- The last resolved attribute claiming `a` as primary action (last write
wins). -/
def lastPrimary (obj : Endpoint) (routables : List String) (a : ActionId) :
    Option Attr :=
  (primaryClaimers obj routables a).getLast?

/-- The last resolved attribute claiming `a` as post action. -/
def lastPost (obj : Endpoint) (routables : List String) (a : ActionId) :
    Option Attr :=
  (postClaimers obj routables a).getLast?

/-- Closed form of the route entry `create_route_map` builds for one
action. -/
def routeAt (obj : Endpoint) (routables : List String) (a : ActionId) :
    Option RouteEntry :=
  if lastPrimary obj routables a = none ∧ lastPost obj routables a = none
  then none
  else
    some
      { onHandler := lastPrimary obj routables a
        afterHandler := lastPost obj routables a
        skipSchemaValidation :=
          (lastPrimary obj routables a).map
            (fun x => x.skipSchemaValidation.getD false) }

/-! ### Association-list (dict) laws -/

theorem findEntry?_setEntry_self (routes : Routes) (a : ActionId)
    (e : RouteEntry) : findEntry? (setEntry routes a e) a = some e := by
  induction routes with
  | nil => simp [setEntry, findEntry?]
  | cons p rest ih =>
      obtain ⟨b, e0⟩ := p
      by_cases hb : b = a
      · subst hb
        simp [setEntry, findEntry?]
      · simp only [setEntry, if_neg hb]
        simpa [findEntry?, List.find?_cons, hb] using ih

theorem findEntry?_setEntry_ne (routes : Routes) (a c : ActionId)
    (e : RouteEntry) (hne : c ≠ a) :
    findEntry? (setEntry routes a e) c = findEntry? routes c := by
  induction routes with
  | nil => simp [setEntry, findEntry?, Ne.symm hne]
  | cons p rest ih =>
      obtain ⟨b, e0⟩ := p
      by_cases hb : b = a
      · subst hb
        simp [setEntry, findEntry?, List.find?_cons, Ne.symm hne]
      · by_cases hc : b = c
        · subst hc
          simp [setEntry, if_neg hb, findEntry?, List.find?_cons]
        · simp only [setEntry, if_neg hb]
          simpa [findEntry?, List.find?_cons, hc] using ih

/-! ### Per-action view of the builder loop -/

/-- The effect of one (name, option) loop iteration on the route entry for a
fixed action `a`, viewed through `findEntry?`. -/
def stepOption (obj : Endpoint) (a : ActionId) (attrName : String)
    (opt : RouteOpt) (cur : Option RouteEntry) : Option RouteEntry :=
  match getattrOf obj attrName with
  | none => cur
  | some attr =>
      if optAction opt attr = some a
      then some (updEntry opt attr (cur.getD RouteEntry.empty))
      else cur

theorem findEntry?_processOption (obj : Endpoint) (routes : Routes)
    (n : String) (opt : RouteOpt) (a : ActionId) :
    findEntry? (processOption obj routes n opt) a =
      stepOption obj a n opt (findEntry? routes a) := by
  unfold processOption stepOption
  cases hg : getattrOf obj n with
  | none => rfl
  | some attr =>
      cases ho : optAction opt attr with
      | none => simp [ho]
      | some action =>
          by_cases hA : action = a
          · subst hA
            simp [ho, findEntry?_setEntry_self]
          · simp [ho, hA, findEntry?_setEntry_ne _ _ _ _ (Ne.symm hA)]

theorem findEntry?_processName (obj : Endpoint) (routes : Routes)
    (n : String) (a : ActionId) :
    findEntry? (processName obj routes n) a =
      stepOption obj a n .afterAction
        (stepOption obj a n .onAction (findEntry? routes a)) := by
  unfold processName
  rw [findEntry?_processOption, findEntry?_processOption]

theorem create_route_map_concat (routables : List String) (n : String)
    (obj : Endpoint) :
    create_route_map (routables ++ [n]) obj =
      processName obj (create_route_map routables obj) n := by
  simp [create_route_map, List.foldl_append]

/-! ### Concat laws for the closed forms -/

theorem lastPrimary_concat (obj : Endpoint) (routables : List String)
    (n : String) (a : ActionId) :
    lastPrimary obj (routables ++ [n]) a =
      match getattrOf obj n with
      | some x =>
          if x.onAction = some a then some x else lastPrimary obj routables a
      | none => lastPrimary obj routables a := by
  unfold lastPrimary primaryClaimers resolvedAttrs
  cases hg : getattrOf obj n with
  | none => simp [List.filterMap_append, hg]
  | some x =>
      by_cases hx : x.onAction = some a
      · simp [List.filterMap_append, hg, hx]
      · simp [List.filterMap_append, hg, hx]

theorem lastPost_concat (obj : Endpoint) (routables : List String)
    (n : String) (a : ActionId) :
    lastPost obj (routables ++ [n]) a =
      match getattrOf obj n with
      | some x =>
          if x.afterAction = some a then some x else lastPost obj routables a
      | none => lastPost obj routables a := by
  unfold lastPost postClaimers resolvedAttrs
  cases hg : getattrOf obj n with
  | none => simp [List.filterMap_append, hg]
  | some x =>
      by_cases hx : x.afterAction = some a
      · simp [List.filterMap_append, hg, hx]
      · simp [List.filterMap_append, hg, hx]

/-- Characterisation of `create_route_map`: the entry built for action `a`
is exactly the spec-side closed form `routeAt`. -/
theorem findEntry?_create_route_map (obj : Endpoint) (routables : List String)
    (a : ActionId) :
    findEntry? (create_route_map routables obj) a = routeAt obj routables a := by
  induction routables using List.reverseRecOn with
  | nil =>
      simp [create_route_map, routeAt, lastPrimary, lastPost, primaryClaimers,
        postClaimers, resolvedAttrs, findEntry?]
  | append_singleton r n ih =>
      rw [create_route_map_concat, findEntry?_processName, ih]
      cases hg : getattrOf obj n with
      | none =>
          simp [stepOption, hg, routeAt, lastPrimary_concat, lastPost_concat]
      | some x =>
          by_cases hons : x.onAction = some a <;>
            by_cases hafs : x.afterAction = some a <;>
            by_cases hp : lastPrimary obj r a = none <;>
            by_cases hq : lastPost obj r a = none <;>
            simp [stepOption, optAction, updEntry, hg, routeAt,
              lastPrimary_concat, lastPost_concat, hons, hafs, hp, hq,
              RouteEntry.empty]

/-! ### Claimer-list helpers -/

theorem getLast?_eq_of_mem_of_all {α : Type _} (l : List α) (x : α)
    (hmem : x ∈ l) (hall : ∀ y ∈ l, y = x) : l.getLast? = some x := by
  induction l with
  | nil => cases hmem
  | cons hd tl ih =>
      cases tl with
      | nil =>
          have : hd = x := hall hd (by simp)
          simp [this]
      | cons hd2 tl2 =>
          rw [List.getLast?_cons_cons]
          have hx2 : x ∈ hd2 :: tl2 := by
            have : hd2 = x := hall hd2 (by simp)
            simp [← this]
          exact ih hx2 (fun y hy => hall y (List.mem_cons_of_mem _ hy))

theorem mem_primaryClaimers (obj : Endpoint) (routables : List String)
    (a : ActionId) (n : String) (x : Attr) (hn : n ∈ routables)
    (hg : getattrOf obj n = some x) (hx : x.onAction = some a) :
    x ∈ primaryClaimers obj routables a := by
  unfold primaryClaimers resolvedAttrs
  exact List.mem_filter.mpr
    ⟨List.mem_filterMap.mpr ⟨n, hn, hg⟩, by simp [hx]⟩

theorem of_mem_primaryClaimers (obj : Endpoint) (routables : List String)
    (a : ActionId) (y : Attr) (hy : y ∈ primaryClaimers obj routables a) :
    (∃ n ∈ routables, getattrOf obj n = some y) ∧ y.onAction = some a := by
  unfold primaryClaimers resolvedAttrs at hy
  obtain ⟨hmem, hdec⟩ := List.mem_filter.mp hy
  exact ⟨List.mem_filterMap.mp hmem, by simpa using hdec⟩

theorem mem_postClaimers (obj : Endpoint) (routables : List String)
    (a : ActionId) (n : String) (x : Attr) (hn : n ∈ routables)
    (hg : getattrOf obj n = some x) (hx : x.afterAction = some a) :
    x ∈ postClaimers obj routables a := by
  unfold postClaimers resolvedAttrs
  exact List.mem_filter.mpr
    ⟨List.mem_filterMap.mpr ⟨n, hn, hg⟩, by simp [hx]⟩

theorem of_mem_postClaimers (obj : Endpoint) (routables : List String)
    (a : ActionId) (y : Attr) (hy : y ∈ postClaimers obj routables a) :
    (∃ n ∈ routables, getattrOf obj n = some y) ∧ y.afterAction = some a := by
  unfold postClaimers resolvedAttrs at hy
  obtain ⟨hmem, hdec⟩ := List.mem_filter.mp hy
  exact ⟨List.mem_filterMap.mp hmem, by simpa using hdec⟩

theorem primaryClaimers_eq_nil (obj : Endpoint) (routables : List String)
    (a : ActionId)
    (h : ∀ n ∈ routables, ∀ x, getattrOf obj n = some x →
        x.onAction ≠ some a) :
    primaryClaimers obj routables a = [] := by
  unfold primaryClaimers resolvedAttrs
  rw [List.filter_eq_nil_iff]
  intro y hy
  obtain ⟨n, hn, hg⟩ := List.mem_filterMap.mp hy
  simpa using h n hn y hg

theorem postClaimers_eq_nil (obj : Endpoint) (routables : List String)
    (a : ActionId)
    (h : ∀ n ∈ routables, ∀ x, getattrOf obj n = some x →
        x.afterAction ≠ some a) :
    postClaimers obj routables a = [] := by
  unfold postClaimers resolvedAttrs
  rw [List.filter_eq_nil_iff]
  intro y hy
  obtain ⟨n, hn, hg⟩ := List.mem_filterMap.mp hy
  simpa using h n hn y hg

/-! ### Registry helpers -/

theorem mem_registerRoutable (m n : String) (r : List String) :
    m ∈ registerRoutable r n ↔ m ∈ r ∨ m = n := by
  unfold registerRoutable
  by_cases h : n ∈ r
  · simp only [if_pos h]
    constructor
    · exact Or.inl
    · rintro (hm | rfl)
      · exact hm
      · exact h
  · simp [if_neg h]

theorem nodup_registerRoutable (r : List String) (n : String)
    (h : r.Nodup) : (registerRoutable r n).Nodup := by
  unfold registerRoutable
  by_cases hm : n ∈ r
  · simpa [hm]
  · simp [hm, List.nodup_append, h, List.disjoint_singleton]

theorem foldl_registerRoutable_nodup (ns : List String) (r : List String)
    (h : r.Nodup) : (ns.foldl registerRoutable r).Nodup := by
  induction ns generalizing r with
  | nil => simpa
  | cons x xs ih => exact ih _ (nodup_registerRoutable r x h)

theorem mem_foldl_registerRoutable (ns : List String) (r : List String)
    (m : String) : m ∈ ns.foldl registerRoutable r ↔ m ∈ r ∨ m ∈ ns := by
  induction ns generalizing r with
  | nil => simp
  | cons x xs ih => simp [ih, mem_registerRoutable, or_assoc]

/-! ### Builder no-op steps -/

theorem processName_missing (obj : Endpoint) (routes : Routes) (n : String)
    (h : getattrOf obj n = none) : processName obj routes n = routes := by
  simp [processName, processOption, h]

theorem processName_unmarked (obj : Endpoint) (routes : Routes) (n : String)
    (x : Attr) (hg : getattrOf obj n = some x) (hon : x.onAction = none)
    (haf : x.afterAction = none) : processName obj routes n = routes := by
  simp [processName, processOption, hg, optAction, hon, haf]

theorem create_route_map_middle (obj : Endpoint) (r1 r2 : List String)
    (n : String) (hid : ∀ routes, processName obj routes n = routes) :
    create_route_map (r1 ++ n :: r2) obj = create_route_map (r1 ++ r2) obj := by
  unfold create_route_map
  rw [List.foldl_append, List.foldl_append, List.foldl_cons, hid]

/-! ### Claim theorems -/

/-- Claim C1: for an instance with a registered attribute wrapped by
`on(A)` and a registered attribute wrapped by `after(A)` for the same
action `A` (and no other attribute claiming `A`), the route map built by
`create_route_map` has an entry for `A` whose `"_on_action"` handler is the
primary attribute, whose `"_after_action"` handler is the post attribute,
and whose `"_skip_schema_validation"` flag equals the flag the `on` wrapper
attached. -/
theorem create_route_map_on_after_same_action
    (routables : List String) (obj : Endpoint) (a : ActionId)
    (n1 n2 : String) (f1 f2 : RawFunc) (s : Bool) (r0 r1 : List String)
    (attr1 attr2 : Attr)
    (h1 : attr1 = (on_decorate a s f1 r0).1)
    (h2 : attr2 = (after_decorate a f2 r1).1)
    (hm1 : n1 ∈ routables) (hm2 : n2 ∈ routables)
    (hg1 : getattrOf obj n1 = some attr1)
    (hg2 : getattrOf obj n2 = some attr2)
    (huniq : ∀ n ∈ routables, ∀ x : Attr, getattrOf obj n = some x →
        (x.onAction = some a → x = attr1) ∧
        (x.afterAction = some a → x = attr2)) :
    findEntry? (create_route_map routables obj) a =
      some ⟨some attr1, some attr2, some s⟩ := by
  have hon1 : attr1.onAction = some a := by rw [h1]; rfl
  have hskip1 : attr1.skipSchemaValidation = some s := by rw [h1]; rfl
  have haf2 : attr2.afterAction = some a := by rw [h2]; rfl
  have hlp : lastPrimary obj routables a = some attr1 := by
    apply getLast?_eq_of_mem_of_all
    · exact mem_primaryClaimers obj routables a n1 attr1 hm1 hg1 hon1
    · intro y hy
      obtain ⟨⟨n, hn, hg⟩, hya⟩ := of_mem_primaryClaimers obj routables a y hy
      exact (huniq n hn y hg).1 hya
  have hlq : lastPost obj routables a = some attr2 := by
    apply getLast?_eq_of_mem_of_all
    · exact mem_postClaimers obj routables a n2 attr2 hm2 hg2 haf2
    · intro y hy
      obtain ⟨⟨n, hn, hg⟩, hya⟩ := of_mem_postClaimers obj routables a y hy
      exact (huniq n hn y hg).2 hya
  rw [findEntry?_create_route_map, routeAt, hlp, hlq]
  simp [hskip1]

def w1f1 : RawFunc := ⟨"on_heartbeat", 1⟩

def w1f2 : RawFunc := ⟨"after_heartbeat", 2⟩

def w1a1 : Attr := (on_decorate "Heartbeat" false w1f1 []).1

def w1a2 : Attr := (after_decorate "Heartbeat" w1f2 ["on_heartbeat"]).1

def w1obj : Endpoint := [("on_heartbeat", w1a1), ("after_heartbeat", w1a2)]

theorem create_route_map_on_after_same_action_witness :
    findEntry? (create_route_map ["on_heartbeat", "after_heartbeat"] w1obj)
        "Heartbeat" = some ⟨some w1a1, some w1a2, some false⟩ :=
  create_route_map_on_after_same_action
    ["on_heartbeat", "after_heartbeat"] w1obj "Heartbeat"
    "on_heartbeat" "after_heartbeat" w1f1 w1f2 false [] ["on_heartbeat"]
    w1a1 w1a2 rfl rfl (by decide) (by decide) (by decide) (by decide)
    (by
      intro n hn x hx
      fin_cases hn <;> simp_all [getattrOf, w1obj, w1a1, w1a2, w1f1, w1f2,
        on_decorate, after_decorate] <;> subst hx <;> decide)

/-- Claim C2: the wrapper built by `on(action, skip)` forwards all
positional and keyword arguments unchanged to the wrapped handler and
returns its result unchanged (pass-through law). -/
theorem on_wrapper_pass_through {Args Kwargs Ret : Type} (action : ActionId)
    (skip : Bool) (func : Args → Kwargs → Ret) (args : Args)
    (kwargs : Kwargs) :
    (on_decorator action skip func).call args kwargs = func args kwargs :=
  rfl

/-- Claim C3: calling the wrapper built by `on_typed(call_type)` with an
instance and named fields equals constructing `request = call_type(fields)`
and calling the original handler with `(instance, request)`. -/
theorem on_typed_wrapper_equiv {Self Fields Req Ret : Type}
    (call_type : Fields → Req) (func : Self → Req → Ret) (self : Self)
    (fields : Fields) :
    on_typed_decorator call_type func self fields =
      func self (call_type fields) :=
  rfl

/-- Claim C4: a wrapper successfully produced by `on_typed(T)` carries as
its primary-action metadata exactly the action-enumeration member looked up
by `T`'s type name (`enums.Action(T.__name__)`), which therefore is a member
name; `on_typed` takes no action parameter, so the action comes solely from
the type's name. -/
theorem on_typed_action_from_type_name (T : CallType) (skip : Bool)
    (func : RawFunc) (routables routables2 : List String) (attr : Attr)
    (h : on_typed_decorate T skip func routables = some (attr, routables2)) :
    attr.onAction = actionOfName T.typeName ∧
      T.typeName ∈ actionMemberNames := by
  unfold on_typed_decorate at h
  cases ha : actionOfName T.typeName with
  | none => rw [ha] at h; exact absurd h (by simp)
  | some act =>
      rw [ha] at h
      have hmem : T.typeName ∈ actionMemberNames := by
        by_contra hnot
        simp [actionOfName, hnot] at ha
      refine ⟨?_, hmem⟩
      have : attr = ⟨some act, none, some skip, func.callId⟩ := by
        have h2 := congrArg (fun p => (Option.map Prod.fst p).getD attr) h
        simpa using h2.symm
      simp [this]

theorem on_typed_action_from_type_name_witness :
    ((⟨some "Heartbeat", none, some false, 0⟩ : Attr).onAction =
        actionOfName "Heartbeat") ∧ "Heartbeat" ∈ actionMemberNames :=
  on_typed_action_from_type_name ⟨"Heartbeat"⟩ false ⟨"on_hb", 0⟩ []
    ["on_hb"] ⟨some "Heartbeat", none, some false, 0⟩ (by decide)

/-- Claim C5: the route map holds at most one primary and at most one post
handler per action; the entry's `"_on_action"` handler is the attribute of
the last registry name claiming the action as primary, and likewise for
`"_after_action"` (silent last-write-wins, no error). -/
theorem create_route_map_last_write_wins (routables : List String)
    (obj : Endpoint) (a : ActionId) :
    ((findEntry? (create_route_map routables obj) a).bind
        RouteEntry.onHandler = lastPrimary obj routables a)
    ∧ ((findEntry? (create_route_map routables obj) a).bind
        RouteEntry.afterHandler = lastPost obj routables a) := by
  rw [findEntry?_create_route_map, routeAt]
  by_cases hp : lastPrimary obj routables a = none <;>
    by_cases hq : lastPost obj routables a = none <;>
    simp [hp, hq]

/-- Claim C6: registration (`on`, `on_typed`, `after` all run the same
conditional append) keeps the registry duplicate-free: each step either
leaves the list unchanged or appends the new name at the end, the registry
built by any sequence of registrations is duplicate-free, registration is
idempotent, the list never shrinks, and a name registered (once or more)
has exactly one entry. -/
theorem registerRoutable_registry_invariants :
    (∀ (r : List String) (n : String),
        registerRoutable r n = r ∨ registerRoutable r n = r ++ [n])
    ∧ (∀ ns : List String, (ns.foldl registerRoutable []).Nodup)
    ∧ (∀ (r : List String) (n : String),
        registerRoutable (registerRoutable r n) n = registerRoutable r n)
    ∧ (∀ (r : List String) (n : String), ∃ t, registerRoutable r n = r ++ t)
    ∧ (∀ (ns : List String) (n : String), n ∈ ns →
        (ns.foldl registerRoutable []).count n = 1) := by
  refine ⟨?_, ?_, ?_, ?_, ?_⟩
  · intro r n
    unfold registerRoutable
    by_cases h : n ∈ r
    · exact Or.inl (by simp [h])
    · exact Or.inr (by simp [h])
  · intro ns
    exact foldl_registerRoutable_nodup ns [] List.nodup_nil
  · intro r n
    unfold registerRoutable
    by_cases h : n ∈ r
    · simp [h]
    · simp [h]
  · intro r n
    unfold registerRoutable
    by_cases h : n ∈ r
    · exact ⟨[], by simp [h]⟩
    · exact ⟨[n], by simp [h]⟩
  · intro ns n hn
    exact List.count_eq_one_of_mem
      (foldl_registerRoutable_nodup ns [] List.nodup_nil)
      ((mem_foldl_registerRoutable ns [] n).mpr (Or.inr hn))

theorem registerRoutable_registry_invariants_witness :
    (["on_boot", "on_boot"].foldl registerRoutable []).count "on_boot" = 1 :=
  registerRoutable_registry_invariants.2.2.2.2 ["on_boot", "on_boot"]
    "on_boot" (by decide)

/-- Claim C7: a registered name that does not resolve to an attribute of
the instance contributes nothing to the route map and raises no error, and
an action claimed by no resolved attribute is absent from the map (no
placeholder entries). -/
theorem create_route_map_missing_name_and_absent_action
    (obj : Endpoint) (r1 r2 : List String) (n : String) (b : ActionId)
    (hmiss : getattrOf obj n = none)
    (hnoclaim : ∀ m ∈ r1 ++ n :: r2, ∀ x : Attr, getattrOf obj m = some x →
        x.onAction ≠ some b ∧ x.afterAction ≠ some b) :
    create_route_map (r1 ++ n :: r2) obj = create_route_map (r1 ++ r2) obj
    ∧ findEntry? (create_route_map (r1 ++ n :: r2) obj) b = none := by
  constructor
  · exact create_route_map_middle obj r1 r2 n
      (fun routes => processName_missing obj routes n hmiss)
  · rw [findEntry?_create_route_map, routeAt]
    have hp : lastPrimary obj (r1 ++ n :: r2) b = none := by
      unfold lastPrimary
      rw [primaryClaimers_eq_nil obj _ b
        (fun m hm x hg => (hnoclaim m hm x hg).1)]
      rfl
    have hq : lastPost obj (r1 ++ n :: r2) b = none := by
      unfold lastPost
      rw [postClaimers_eq_nil obj _ b
        (fun m hm x hg => (hnoclaim m hm x hg).2)]
      rfl
    simp [hp, hq]

def w7attr : Attr := ⟨some "Heartbeat", none, some false, 1⟩

def w7obj : Endpoint := [("on_heartbeat", w7attr)]

theorem create_route_map_missing_name_witness :
    create_route_map (["on_heartbeat"] ++ "ghost_handler" :: []) w7obj
        = create_route_map (["on_heartbeat"] ++ []) w7obj
    ∧ findEntry?
        (create_route_map (["on_heartbeat"] ++ "ghost_handler" :: []) w7obj)
        "Reset" = none :=
  create_route_map_missing_name_and_absent_action w7obj ["on_heartbeat"] []
    "ghost_handler" "Reset" (by decide)
    (by
      intro m hm x hx
      fin_cases hm <;> simp_all [getattrOf, w7obj, w7attr] <;> simp [← hx])

/-- The after-only attribute and instance used to refute claim C8. -/
def c8Attr : Attr := ⟨none, some "Heartbeat", none, 2⟩

def c8Obj : Endpoint := [("after_heartbeat", c8Attr)]

/-- Claim C8 counterexample: for an instance where only a post handler
resolves for `"Heartbeat"`, the built route entry exists but its
`"_skip_schema_validation"` key is absent — it is not present with value
false as the claim states. -/
theorem after_only_skip_key_absent_cex :
    findEntry? (create_route_map ["after_heartbeat"] c8Obj) "Heartbeat"
        = some ⟨none, some c8Attr, none⟩
    ∧ ¬((findEntry? (create_route_map ["after_heartbeat"] c8Obj)
          "Heartbeat").bind RouteEntry.skipSchemaValidation = some false) := by
  decide

/-- Claim C8 (amended): for every action for which only a post handler (and
no primary handler) resolves on the instance, the built route entry exists,
holds the post handler, and its `"_skip_schema_validation"` key is absent
(so a lookup defaulting to false reads false, but the key itself is never
stored). -/
theorem create_route_map_after_only_no_skip_key (routables : List String)
    (obj : Endpoint) (a : ActionId)
    (hq : lastPost obj routables a ≠ none)
    (hp : lastPrimary obj routables a = none) :
    findEntry? (create_route_map routables obj) a =
      some ⟨none, lastPost obj routables a, none⟩ := by
  rw [findEntry?_create_route_map, routeAt]
  simp [hp, hq]

theorem create_route_map_after_only_no_skip_key_witness :
    findEntry? (create_route_map ["after_heartbeat"] c8Obj) "Heartbeat"
      = some ⟨none, lastPost c8Obj ["after_heartbeat"] "Heartbeat", none⟩ :=
  create_route_map_after_only_no_skip_key ["after_heartbeat"] c8Obj
    "Heartbeat" (by decide) (by decide)

/-- Claim C9 counterexample: applying `on_typed` with a request type whose
name is not an action-enumeration member fails already at registration
time: `enums.Action(call_type.__name__)` on `routing.py:39` raises
`ValueError` while the decorator is being applied, before any use of the
recorded value. -/
theorem on_typed_registration_raises_cex :
    on_typed_decorate ⟨"NotAnAction"⟩ false ⟨"on_x", 0⟩ [] = none := by
  decide

/-- Claim C9 (amended): `on` and `after` raise nothing at registration time
for any action value (their registry effect is always the plain conditional
append), but `on_typed` evaluates the action-enumeration lookup eagerly at
decoration time and therefore succeeds exactly when the request type's name
is an enumeration member; only result-construction failures are deferred to
call time. -/
theorem registration_time_error_behaviour (T : CallType) (skip : Bool)
    (f : RawFunc) (r : List String) (a : ActionId) :
    ((on_typed_decorate T skip f r).isSome ↔ T.typeName ∈ actionMemberNames)
    ∧ (on_decorate a skip f r).2 = registerRoutable r f.name
    ∧ (after_decorate a f r).2 = registerRoutable r f.name := by
  refine ⟨?_, rfl, rfl⟩
  unfold on_typed_decorate actionOfName
  by_cases h : T.typeName ∈ actionMemberNames <;> simp [h]

/-- Claim C10: `create_route_map` is total; a registered name whose
attribute exists on the instance but carries neither `_on_action` nor
`_after_action` metadata is silently skipped and leaves the map built from
the remaining names exactly unchanged. -/
theorem create_route_map_skips_unmarked (obj : Endpoint)
    (r1 r2 : List String) (n : String) (x : Attr)
    (hg : getattrOf obj n = some x) (hon : x.onAction = none)
    (haf : x.afterAction = none) :
    create_route_map (r1 ++ n :: r2) obj = create_route_map (r1 ++ r2) obj :=
  create_route_map_middle obj r1 r2 n
    (fun routes => processName_unmarked obj routes n x hg hon haf)

def w10attr : Attr := ⟨none, none, none, 7⟩

def w10obj : Endpoint :=
  [("on_heartbeat", ⟨some "Heartbeat", none, some false, 1⟩),
   ("plain_method", w10attr)]

theorem create_route_map_skips_unmarked_witness :
    create_route_map (["on_heartbeat"] ++ "plain_method" :: []) w10obj
      = create_route_map (["on_heartbeat"] ++ []) w10obj :=
  create_route_map_skips_unmarked w10obj ["on_heartbeat"] [] "plain_method"
    w10attr (by decide) rfl rfl

end OcppRouting
